import Mathlib

/-!
Verification of the technical-indicator and investment-signal engine of the
financial ETL pipeline (`src/etl/transform.py`).

The Python code computes over pandas float series.  The embedding models a
float series as a `List` of values: exact numbers are rationals (`ℚ`), and
the IEEE special values that pandas produces (NaN for missing data and for
0/0, signed infinities for x/0) are modelled by the inductive type `FVal`.
Columns that can only be "missing or an exact number" (warm-up of a rolling
window over clean data) use `Option ℚ`, and the Bollinger standard deviation,
whose value is a square root, lives in `ℝ` via `Real.sqrt`.
-/

namespace Transform

/-- A pandas float cell: a finite (exact rational) value, a signed infinity,
or NaN.  NaN doubles as the missing value, as it does in pandas. -/
inductive FVal where
  | fin : ℚ → FVal
  | pinf : FVal
  | ninf : FVal
  | nan : FVal
deriving DecidableEq

namespace FVal

/-- IEEE negation. -/
def fneg : FVal → FVal
  | fin a => fin (-a)
  | pinf => ninf
  | ninf => pinf
  | nan => nan

/-- IEEE addition: NaN absorbs, opposite infinities give NaN. -/
def fadd : FVal → FVal → FVal
  | nan, _ => nan
  | _, nan => nan
  | fin a, fin b => fin (a + b)
  | fin _, pinf => pinf
  | fin _, ninf => ninf
  | pinf, fin _ => pinf
  | ninf, fin _ => ninf
  | pinf, pinf => pinf
  | ninf, ninf => ninf
  | pinf, ninf => nan
  | ninf, pinf => nan

/-- IEEE subtraction. -/
def fsub (a b : FVal) : FVal := fadd a (fneg b)

/-- IEEE multiplication: 0 · ∞ = NaN. -/
def fmul : FVal → FVal → FVal
  | nan, _ => nan
  | _, nan => nan
  | fin a, fin b => fin (a * b)
  | fin a, pinf => if 0 < a then pinf else if a < 0 then ninf else nan
  | fin a, ninf => if 0 < a then ninf else if a < 0 then pinf else nan
  | pinf, fin a => if 0 < a then pinf else if a < 0 then ninf else nan
  | ninf, fin a => if 0 < a then ninf else if a < 0 then pinf else nan
  | pinf, pinf => pinf
  | pinf, ninf => ninf
  | ninf, pinf => ninf
  | ninf, ninf => pinf

/-- IEEE division (with the zero divisor read as +0, the only zero of `ℚ`):
x/0 is a signed infinity for x ≠ 0 and NaN for x = 0; x/∞ is 0; ∞/∞ is NaN. -/
def fdiv : FVal → FVal → FVal
  | nan, _ => nan
  | _, nan => nan
  | fin a, fin b =>
      if b = 0 then (if a = 0 then nan else if 0 < a then pinf else ninf)
      else fin (a / b)
  | fin _, pinf => fin 0
  | fin _, ninf => fin 0
  | pinf, fin b => if 0 ≤ b then pinf else ninf
  | ninf, fin b => if 0 ≤ b then ninf else pinf
  | pinf, pinf => nan
  | pinf, ninf => nan
  | ninf, pinf => nan
  | ninf, ninf => nan

/-- IEEE absolute value. -/
def fabs : FVal → FVal
  | fin a => fin |a|
  | pinf => pinf
  | ninf => pinf
  | nan => nan

/-- Pandas `Series.clip(lower=0)`: NaN passes through, finite values are cut at 0. -/
def fclipLo0 : FVal → FVal
  | fin a => fin (max a 0)
  | pinf => pinf
  | ninf => fin 0
  | nan => nan

/-- Pandas `Series.clip(upper=0)`. -/
def fclipHi0 : FVal → FVal
  | fin a => fin (min a 0)
  | pinf => fin 0
  | ninf => ninf
  | nan => nan

/-- Numpy `np.sign` on a float cell (`np.sign(NaN) = NaN`). -/
def fsign : FVal → FVal
  | fin a => fin (if 0 < a then 1 else if a < 0 then -1 else 0)
  | pinf => fin 1
  | ninf => fin (-1)
  | nan => nan

/-- Binary maximum ignoring NaN (pandas `DataFrame.max(axis=1)`, `skipna=True`):
NaN is the identity, a maximum over only-NaN cells stays NaN. -/
def fmax2 : FVal → FVal → FVal
  | nan, b => b
  | a, nan => a
  | pinf, _ => pinf
  | _, pinf => pinf
  | ninf, b => b
  | a, ninf => a
  | fin a, fin b => fin (max a b)

/-- Pandas `Series.fillna(0)`. -/
def fillna0 : FVal → FVal
  | nan => fin 0
  | x => x

end FVal

open FVal

/-- NaN-propagating sum of a row of cells, as a left fold starting at 0. -/
def fsum (l : List FVal) : FVal := l.foldl fadd (fin 0)

/-- Floor of a rational (`⌊q⌋`), written with explicit integer floor
division so that it evaluates by `decide`-free kernel reduction. -/
def ratFloor (q : ℚ) : ℤ := q.num.fdiv q.den

/-- Round half to even to an integer — the rounding of `numpy.round` and of
Python's built-in `round`. -/
def roundHalfEven (q : ℚ) : ℤ :=
  let f : ℤ := ratFloor q
  let r : ℚ := q - (f : ℚ)
  if r < 1/2 then f
  else if 1/2 < r then f + 1
  else if f % 2 = 0 then f else f + 1

/-- Rounding of `round(q, d)`: half to even at `d` decimal places. -/
def roundTo (d : ℕ) (q : ℚ) : ℚ := (roundHalfEven (q * 10 ^ d) : ℚ) / 10 ^ d

/-- Pandas `Series.round(d)` on one cell: infinities and NaN are unchanged. -/
def froundTo (d : ℕ) : FVal → FVal
  | fin a => fin (roundTo d a)
  | x => x

/-! ### Series primitives (pandas operations the source relies on) -/

/-- The trailing window of width `w` ending at index `i`:
elements `i+1-w … i` of the list. -/
def windowSlice (w i : ℕ) (xs : List FVal) : List FVal := (xs.drop (i + 1 - w)).take w

/-- Pandas `Series.rolling(window=w).mean()` over a float series (default
`min_periods = w`): NaN for the first `w-1` indices, then the
NaN-propagating mean of the trailing window. -/
def rollingMeanF (w : ℕ) (xs : List FVal) : List FVal :=
  (List.range xs.length).map (fun i =>
    if i + 1 < w then nan else fdiv (fsum (windowSlice w i xs)) (fin w))

/-- Pandas `Series.rolling(window=w).mean()` over a clean rational series:
`none` during warm-up, the exact mean afterwards. -/
def rollingMeanQ (w : ℕ) (xs : List ℚ) : List (Option ℚ) :=
  (List.range xs.length).map (fun i =>
    if i + 1 < w then none
    else some ((((xs.drop (i + 1 - w)).take w).sum) / w))

/-- The sample variance (`ddof = 1`, the pandas default for `std`) of the
trailing window of width `w` ending at `i`; `none` during warm-up. -/
def rollingVar (w : ℕ) (xs : List ℚ) : List (Option ℚ) :=
  (List.range xs.length).map (fun i =>
    if i + 1 < w then none
    else
      let win := (xs.drop (i + 1 - w)).take w
      let m := win.sum / w
      some (((win.map (fun x => (x - m) ^ 2)).sum) / (w - 1 : ℕ)))

/-- Pandas `Series.rolling(window=w).std()`: the square root of the sample
variance, a real number. -/
noncomputable def rollingStd (w : ℕ) (xs : List ℚ) : List (Option ℝ) :=
  (rollingVar w xs).map (Option.map (fun v : ℚ => Real.sqrt (v : ℝ)))

/-- Pandas `Series.diff()`: first cell NaN, then `xs[i] - xs[i-1]`. -/
def diffSeries : List ℚ → List FVal
  | [] => []
  | x :: xs => nan :: List.zipWith (fun a b => fin (a - b)) xs (x :: xs)

/-- Pandas `Series.shift()`: first cell NaN, then `xs[i-1]`. -/
def shiftSeries (xs : List ℚ) : List FVal :=
  match xs with
  | [] => []
  | _ :: _ => nan :: xs.dropLast.map fin

/-- Running cumulative sum used for `Series.cumsum()`. -/
def cumsumF (acc : FVal) : List FVal → List FVal
  | [] => []
  | x :: xs => fadd acc x :: cumsumF (fadd acc x) xs

/-- Tail of `Series.ewm(span=s, adjust=False).mean()` after the first
element: `e[i] = a*x[i] + (1-a)*e[i-1]` carried along the list. -/
def emaAux (a : ℚ) : ℚ → List ℚ → List ℚ
  | _, [] => []
  | prev, x :: xs => (a * x + (1 - a) * prev) :: emaAux a (a * x + (1 - a) * prev) xs

/-- Pandas `Series.ewm(span=s, adjust=False).mean()`: seeded at the first
observation, smoothing factor `a = 2/(s+1)`. -/
def ema (span : ℕ) : List ℚ → List ℚ
  | [] => []
  | x :: xs => x :: emaAux (2 / ((span : ℚ) + 1)) x xs

/-! ### SeriesMath: the indicator functions of `transform.py` -/

/-- Column `gain` of `calcular_rsi`: `delta.clip(lower=0)`. -/
def gainSeries (close : List ℚ) : List FVal := (diffSeries close).map fclipLo0

/-- Column `loss` of `calcular_rsi`: `-delta.clip(upper=0)`. -/
def lossSeries (close : List ℚ) : List FVal :=
  (diffSeries close).map (fun d => fneg (fclipHi0 d))

/-- Column `avg_gain` of `calcular_rsi`: `gain.rolling(window).mean()`. -/
def avgGain (close : List ℚ) (window : ℕ := 14) : List FVal :=
  rollingMeanF window (gainSeries close)

/-- Column `avg_loss` of `calcular_rsi`: `loss.rolling(window).mean()`. -/
def avgLoss (close : List ℚ) (window : ℕ := 14) : List FVal :=
  rollingMeanF window (lossSeries close)

/-- Source `calcular_rsi(close, window=14)`:
`rs = avg_gain / avg_loss`, `rsi = 100 - (100 / (1 + rs))`. -/
def calcular_rsi (close : List ℚ) (window : ℕ := 14) : List FVal :=
  (List.zipWith fdiv (avgGain close window) (avgLoss close window)).map
    (fun rs => fsub (fin 100) (fdiv (fin 100) (fadd (fin 1) rs)))

/-- Source `calcular_macd(close, short=12, long=26, signal=9)`: the triple
(macd line, signal line, histogram), all exponential moving averages with
`adjust=False`. -/
def calcular_macd (close : List ℚ) (short : ℕ := 12) (long : ℕ := 26)
    (signal : ℕ := 9) : List ℚ × List ℚ × List ℚ :=
  let macd := List.zipWith (fun a b => a - b) (ema short close) (ema long close)
  let macdSignal := ema signal macd
  let macdHist := List.zipWith (fun a b => a - b) macd macdSignal
  (macd, macdSignal, macdHist)

/-- Column `true_range` of `calcular_atr`: the row-wise NaN-ignoring maximum
of `high-low`, `|high - close.shift()|` and `|low - close.shift()|`. -/
def trueRange (high low close : List ℚ) : List FVal :=
  let highLow := List.zipWith (fun h l => fin (h - l)) high low
  let highClose := List.zipWith (fun h s => fabs (fsub (fin h) s)) high (shiftSeries close)
  let lowClose := List.zipWith (fun l s => fabs (fsub (fin l) s)) low (shiftSeries close)
  List.zipWith fmax2 (List.zipWith fmax2 highLow highClose) lowClose

/-- Source `calcular_atr(high, low, close, window=14)`:
rolling mean of the true range. -/
def calcular_atr (high low close : List ℚ) (window : ℕ := 14) : List FVal :=
  rollingMeanF window (trueRange high low close)

/-- Source `calcular_obv(close, volume)`:
`(np.sign(close.diff()) * volume).fillna(0).cumsum()`. -/
def calcular_obv (close volume : List ℚ) : List FVal :=
  cumsumF (fin 0)
    (((List.zipWith fmul ((diffSeries close).map fsign) (volume.map fin)).map fillna0))

/-! ### FibonacciLevels (inlined in `calcular_indicadores_tecnicos`) -/

/-- Maximum of a close series (`group['Close'].max()`); 0 on an empty list,
which the pipeline never produces (a pandas group is nonempty). -/
def listMax : List ℚ → ℚ
  | [] => 0
  | x :: xs => xs.foldl max x

/-- Minimum of a close series (`group['Close'].min()`). -/
def listMin : List ℚ → ℚ
  | [] => 0
  | x :: xs => xs.foldl min x

/-- Level `Fib_0.0%` = `max_close`. -/
def fib00 (close : List ℚ) : ℚ := listMax close

/-- Level `Fib_23.6%` = `max_close - diff * 0.236`. -/
def fib236 (close : List ℚ) : ℚ :=
  listMax close - (listMax close - listMin close) * (236 / 1000)

/-- Level `Fib_38.2%` = `max_close - diff * 0.382`. -/
def fib382 (close : List ℚ) : ℚ :=
  listMax close - (listMax close - listMin close) * (382 / 1000)

/-- Level `Fib_50.0%` = `max_close - diff * 0.50`. -/
def fib500 (close : List ℚ) : ℚ :=
  listMax close - (listMax close - listMin close) * (50 / 100)

/-- Level `Fib_61.8%` = `max_close - diff * 0.618`. -/
def fib618 (close : List ℚ) : ℚ :=
  listMax close - (listMax close - listMin close) * (618 / 1000)

/-- Level `Fib_100%` = `min_close`. -/
def fib100 (close : List ℚ) : ℚ := listMin close

/-- The most recent close of the (date-sorted) series:
`group.iloc[-1]['Close']`. -/
def ultimoClose (close : List ℚ) : ℚ := close.getLastD 0

/-- The `diffs` dictionary of the source, in its insertion order: the
absolute distance from the most recent close to each of the six levels. -/
def fibDiffs (close : List ℚ) : List (String × ℚ) :=
  [("0.0%", |ultimoClose close - fib00 close|),
   ("23.6%", |ultimoClose close - fib236 close|),
   ("38.2%", |ultimoClose close - fib382 close|),
   ("50.0%", |ultimoClose close - fib500 close|),
   ("61.8%", |ultimoClose close - fib618 close|),
   ("100%", |ultimoClose close - fib100 close|)]

/-- Python's `min(iterable, key=...)` over key/value pairs: keeps the current
pair unless a strictly smaller value appears, so the FIRST pair attaining the
minimum wins. -/
def minPairAux : (String × ℚ) → List (String × ℚ) → (String × ℚ)
  | best, [] => best
  | best, p :: rest => if p.2 < best.2 then minPairAux p rest else minPairAux best rest

/-- Source `nivel_cercano = min(diffs, key=diffs.get)`: the first level (in
the fixed insertion order of `diffs`) whose distance to the last close is
minimal. -/
def nivelFibCercano (close : List ℚ) : String :=
  match fibDiffs close with
  | [] => ""
  | p :: rest => (minPairAux p rest).1

/-- Source `estado_fib`: SOPORTE for the three middle retracement levels,
RESISTENCIA for the two top ones, NEUTRO otherwise (the 100% level). -/
def estadoFibCalc (close : List ℚ) : String :=
  if nivelFibCercano close ∈ (["38.2%", "50.0%", "61.8%"] : List String) then "SOPORTE"
  else if nivelFibCercano close ∈ (["0.0%", "23.6%"] : List String) then "RESISTENCIA"
  else "NEUTRO"

/-! ### IndicatorEngine: `calcular_indicadores_tecnicos` -/

/-- One row of the tidy price table (the `Open` column is carried by the
pipeline but never read by the indicator engine, so it is not modelled).
Dates are abstracted to naturals: only their order matters. -/
structure PricePoint where
  date : ℕ
  high : ℚ
  low : ℚ
  close : ℚ
  volume : ℚ
deriving DecidableEq

/-- Stable insertion of a price row into a date-sorted list. -/
def insertByDate (p : PricePoint) : List PricePoint → List PricePoint
  | [] => [p]
  | q :: rest => if p.date ≤ q.date then p :: q :: rest else q :: insertByDate p rest

/-- The `df.sort_values(by=['Ticker', 'Date'])` step, per ticker group:
sort the group's rows by date (dates are unique within a ticker, so
stability questions do not arise). -/
def sortByDate : List PricePoint → List PricePoint
  | [] => []
  | p :: rest => insertByDate p (sortByDate rest)

/-- One output row of the indicator engine. -/
structure IndicatorRow where
  date : ℕ
  ticker : String
  close : ℚ
  sma20 : Option ℚ
  sma50 : Option ℚ
  ema20 : ℚ
  rsi14 : FVal
  macd : ℚ
  macdSignal : ℚ
  macdHist : ℚ
  atr14 : FVal
  obv : FVal
  bbMiddle : Option ℚ
  bbUpper : Option ℝ
  bbLower : Option ℝ
  volatility20 : Option ℝ
  fib00 : ℚ
  fib236 : ℚ
  fib382 : ℚ
  fib500 : ℚ
  fib618 : ℚ
  fib100 : ℚ
  nivelFibCercano : String
  estadoFibonacci : String

/-- The body of the per-ticker loop of `calcular_indicadores_tecnicos`:
sort the group by date, compute every indicator column, and emit one
`IndicatorRow` per input row. -/
noncomputable def indicadores_ticker (ticker : String) (g0 : List PricePoint) :
    List IndicatorRow :=
  let g := sortByDate g0
  let closes := g.map PricePoint.close
  let sma20 := rollingMeanQ 20 closes
  let sma50 := rollingMeanQ 50 closes
  let ema20 := ema 20 closes
  let rsi14 := calcular_rsi closes
  let macd3 := calcular_macd closes
  let atr14 := calcular_atr (g.map PricePoint.high) (g.map PricePoint.low) closes
  let obv := calcular_obv closes (g.map PricePoint.volume)
  let bbMiddle := rollingMeanQ 20 closes
  let stdev := rollingStd 20 closes
  let bbUpper := List.zipWith
    (fun m s => match m, s with
      | some m', some s' => some ((m' : ℝ) + 2 * s')
      | _, _ => none) bbMiddle stdev
  let bbLower := List.zipWith
    (fun m s => match m, s with
      | some m', some s' => some ((m' : ℝ) - 2 * s')
      | _, _ => none) bbMiddle stdev
  let niv := nivelFibCercano closes
  let est := estadoFibCalc closes
  (List.range g.length).map (fun i =>
    { date := (g.getD i ⟨0, 0, 0, 0, 0⟩).date
      ticker := ticker
      close := closes.getD i 0
      sma20 := sma20.getD i none
      sma50 := sma50.getD i none
      ema20 := ema20.getD i 0
      rsi14 := rsi14.getD i nan
      macd := macd3.1.getD i 0
      macdSignal := macd3.2.1.getD i 0
      macdHist := macd3.2.2.getD i 0
      atr14 := atr14.getD i nan
      obv := obv.getD i nan
      bbMiddle := bbMiddle.getD i none
      bbUpper := bbUpper.getD i none
      bbLower := bbLower.getD i none
      volatility20 := (stdev.getD i none)
      fib00 := fib00 closes
      fib236 := fib236 closes
      fib382 := fib382 closes
      fib500 := fib500 closes
      fib618 := fib618 closes
      fib100 := fib100 closes
      nivelFibCercano := niv
      estadoFibonacci := est })

/-- Source `calcular_indicadores_tecnicos`: the input price table grouped by
ticker (pandas `groupby`), each group processed independently and the
resulting row blocks concatenated by `pd.concat(indicadores)`.  On an empty
input table the groupby loop never runs and `pd.concat([])` raises
`ValueError: No objects to concatenate`, so the fallible concat is modelled
with `Option`: `none` is the raised error, `some` the produced table. -/
noncomputable def calcular_indicadores_tecnicos
    (tabla : List (String × List PricePoint)) : Option (List IndicatorRow) :=
  match tabla with
  | [] => none
  | _ :: _ => some ((tabla.map (fun p => indicadores_ticker p.1 p.2)).flatten)

/-! ### SignalAggregator: `calcular_resumen_inversion`

The CSV loading and the inner merge on ticker are I/O glue; a joined record
(latest indicator row of a ticker together with its fundamentals row) is the
aggregator's input.  A field read from CSV that is NaN is a missing field,
modelled as `none`. -/

/-- One joined (latest technical snapshot, fundamentals) record. -/
structure JoinedRow where
  ticker : String
  sma20 : Option ℚ
  ema20 : Option ℚ
  macd : Option ℚ
  macdSignal : Option ℚ
  rsi14 : Option ℚ
  close : Option ℚ
  bbUpper : Option ℚ
  bbLower : Option ℚ
  estadoFibonacci : Option String
  per : Option ℚ
  roe : Option ℚ
  epsGrowth : Option ℚ
  deudaPatrimonio : Option ℚ
deriving DecidableEq

/-- The `señales_tec` dict built by the source, in insertion order: each
signal is added only when every field it reads is present (`pd.notna`). -/
def senalesTec (r : JoinedRow) : List (String × String) :=
  (match r.sma20, r.ema20 with
   | some s, some e => [("SMA_vs_EMA", if e < s then "COMPRAR" else "VENDER")]
   | _, _ => []) ++
  (match r.macd, r.macdSignal with
   | some m, some s => [("MACD", if s < m then "COMPRAR" else "VENDER")]
   | _, _ => []) ++
  (match r.rsi14 with
   | some v => [("RSI", if v < 30 then "COMPRAR" else if 70 < v then "VENDER" else "MANTENER")]
   | none => []) ++
  (match r.estadoFibonacci with
   | some s =>
     [("Estado_Fibonacci",
       if s = "SOPORTE" then "COMPRAR" else if s = "RESISTENCIA" then "VENDER" else "MANTENER")]
   | none => [])

/-- The `señales_fund` dict built by the source, in insertion order. -/
def senalesFund (r : JoinedRow) : List (String × String) :=
  (match r.per with
   | some v => [("PER", if v < 20 then "COMPRAR" else if 30 < v then "VENDER" else "MANTENER")]
   | none => []) ++
  (match r.roe with
   | some v =>
     [("ROE", if 15/100 < v then "COMPRAR" else if v < 5/100 then "VENDER" else "MANTENER")]
   | none => []) ++
  (match r.epsGrowth with
   | some v =>
     [("EPS Growth YoY",
       if 10/100 < v then "COMPRAR" else if v < 0 then "VENDER" else "MANTENER")]
   | none => []) ++
  (match r.deudaPatrimonio with
   | some v =>
     [("Deuda/Patrimonio",
       if v < 100 then "COMPRAR" else if 200 < v then "VENDER" else "MANTENER")]
   | none => [])

/-- Count of BUY labels in a signal dict (`list(d.values()).count('COMPRAR')`). -/
def countCompras (l : List (String × String)) : ℕ :=
  l.countP (fun p => p.2 == "COMPRAR")

/-- Count of SELL labels in a signal dict. -/
def countVentas (l : List (String × String)) : ℕ :=
  l.countP (fun p => p.2 == "VENDER")

/-- Source `pct_tecnico_buy`: BUY share of the present technical signals,
rounded to 2 decimals, or NaN when no technical signal is present. -/
def pctTecnicoBuy (r : JoinedRow) : Option ℚ :=
  if 0 < (senalesTec r).length then
    some (roundTo 2 ((countCompras (senalesTec r) : ℚ) / ((senalesTec r).length : ℚ) * 100))
  else none

/-- Source `pct_fundamental_buy`. -/
def pctFundamentalBuy (r : JoinedRow) : Option ℚ :=
  if 0 < (senalesFund r).length then
    some (roundTo 2 ((countCompras (senalesFund r) : ℚ) / ((senalesFund r).length : ℚ) * 100))
  else none

/-- Source final decision: simple majority of BUY vs SELL votes across
both dicts, ties (including 0-0) giving MANTENER. -/
def decisionFinal (r : JoinedRow) : String :=
  let compras := countCompras (senalesTec r) + countCompras (senalesFund r)
  let ventas := countVentas (senalesTec r) + countVentas (senalesFund r)
  if ventas < compras then "COMPRAR"
  else if compras < ventas then "VENDER"
  else "MANTENER"

/-- Source `estado_bb` (informational only, not voted). -/
def estadoBB (r : JoinedRow) : Option String :=
  match r.bbUpper, r.bbLower, r.close with
  | some u, some l, some c =>
      some (if u < c then "Sobrecompra" else if c < l then "Sobreventa" else "Normal")
  | _, _, _ => none

/-- One output row of the aggregator. -/
structure DecisionRow where
  ticker : String
  pctTecnicoBuy : Option ℚ
  pctFundamentalBuy : Option ℚ
  decisionFinal : String
  estadoBollingerBands : Option String
  smaVsEma : Option String
  macdSig : Option String
  rsiSig : Option String
  perSig : Option String
  roeSig : Option String
  epsSig : Option String
  deudaSig : Option String
  estadoFibonacci : Option String
deriving DecidableEq

/-- The body of the per-record loop of `calcular_resumen_inversion`. -/
def resumenRow (r : JoinedRow) : DecisionRow :=
  { ticker := r.ticker
    pctTecnicoBuy := pctTecnicoBuy r
    pctFundamentalBuy := pctFundamentalBuy r
    decisionFinal := decisionFinal r
    estadoBollingerBands := estadoBB r
    smaVsEma := (senalesTec r).lookup "SMA_vs_EMA"
    macdSig := (senalesTec r).lookup "MACD"
    rsiSig := (senalesTec r).lookup "RSI"
    perSig := (senalesFund r).lookup "PER"
    roeSig := (senalesFund r).lookup "ROE"
    epsSig := (senalesFund r).lookup "EPS Growth YoY"
    deudaSig := (senalesFund r).lookup "Deuda/Patrimonio"
    estadoFibonacci := r.estadoFibonacci }

/-- Source `calcular_resumen_inversion`: one decision row per joined record. -/
def calcular_resumen_inversion (joined : List JoinedRow) : List DecisionRow :=
  joined.map resumenRow

/-- The worked example of the spec: SMA_20=105, EMA_20=100, MACD=1.0,
MACD_Signal=0.5, RSI_14=25, PER=15, ROE=0.20, EPS Growth=0.12,
Debt/Equity=50, Fibonacci state=SOPORTE. -/
def ejemploResumen : JoinedRow :=
  { ticker := "EJ"
    sma20 := some 105
    ema20 := some 100
    macd := some 1
    macdSignal := some (1/2)
    rsi14 := some 25
    close := none
    bbUpper := none
    bbLower := none
    estadoFibonacci := some "SOPORTE"
    per := some 15
    roe := some (20/100)
    epsGrowth := some (12/100)
    deudaPatrimonio := some 50 }

/-! ### VariationEngine: `calcular_variaciones_precios` -/

/-- Pandas `Series.pct_change(periods=lag)` on a clean close series:
`close / close.shift(lag) - 1` with IEEE float semantics, NaN for the
first `lag` cells. -/
def pct_change (lag : ℕ) (close : List ℚ) : List FVal :=
  (List.range close.length).map (fun i =>
    if i < lag then nan
    else match close[i - lag]?, close[i]? with
      | some p, some c => fsub (fdiv (fin c) (fin p)) (fin 1)
      | _, _ => nan)

/-- One variation column of the source: the pct change at the given lag,
rounded to 4 decimals. -/
def variacion (lag : ℕ) (close : List ℚ) : List FVal :=
  (pct_change lag close).map (froundTo 4)

/-- One output row of the variation engine. -/
structure VariationRow where
  date : ℕ
  ticker : String
  close : ℚ
  varDaily : FVal
  varWeekly : FVal
  varMonthly : FVal
  varAnnual : FVal
  var5y : FVal
deriving DecidableEq

/-- The per-ticker block of `calcular_variaciones_precios`: the five fixed
lags 1, 5, 21, 252 and 252·5 applied to the date-sorted close series. -/
def variaciones_ticker (ticker : String) (g0 : List PricePoint) : List VariationRow :=
  let g := sortByDate g0
  let closes := g.map PricePoint.close
  let vDaily := variacion 1 closes
  let vWeekly := variacion 5 closes
  let vMonthly := variacion 21 closes
  let vAnnual := variacion 252 closes
  let v5y := variacion (252 * 5) closes
  (List.range g.length).map (fun i =>
    { date := (g.getD i ⟨0, 0, 0, 0, 0⟩).date
      ticker := ticker
      close := closes.getD i 0
      varDaily := vDaily.getD i nan
      varWeekly := vWeekly.getD i nan
      varMonthly := vMonthly.getD i nan
      varAnnual := vAnnual.getD i nan
      var5y := v5y.getD i nan })

/-- Source `calcular_variaciones_precios` over the grouped price table. -/
def calcular_variaciones_precios (tabla : List (String × List PricePoint)) :
    List VariationRow :=
  (tabla.map (fun p => variaciones_ticker p.1 p.2)).flatten

/-! ### Helper lemmas -/

lemma range_map_getElem? {α : Type} (f : ℕ → α) {n i : ℕ} (h : i < n) :
    ((List.range n).map f)[i]? = some (f i) := by
  rw [List.getElem?_map, List.getElem?_range h, Option.map_some']

lemma length_insertByDate (p : PricePoint) (l : List PricePoint) :
    (insertByDate p l).length = l.length + 1 := by
  induction l with
  | nil => rfl
  | cons q rest ih =>
    by_cases h : p.date ≤ q.date
    · simp [insertByDate, h]
    · simp [insertByDate, h, ih]

lemma length_sortByDate (l : List PricePoint) : (sortByDate l).length = l.length := by
  induction l with
  | nil => rfl
  | cons p rest ih => simp [sortByDate, length_insertByDate, ih]

lemma length_indicadores_ticker (t : String) (g : List PricePoint) :
    (indicadores_ticker t g).length = g.length := by
  simp [indicadores_ticker, length_sortByDate]

/-! ### C1 -/

/-- C1 (amended): on every nonempty input price table the IndicatorEngine
produces exactly one `IndicatorRow` per input (date, ticker) row — the
output table's length is the sum of the group sizes and per ticker the
block has the length of the group; a single-point ticker still produces its
row, with every windowed field null; but an empty input table makes
`pd.concat([])` raise (modelled as `none`) instead of yielding an empty
output table. -/
theorem C1_one_row_per_price_point :
    (∀ tabla : List (String × List PricePoint), tabla ≠ [] →
        ∃ rows : List IndicatorRow,
          calcular_indicadores_tecnicos tabla = some rows ∧
          rows.length = (tabla.map (fun p => p.2.length)).sum) ∧
    (∀ t g, (indicadores_ticker t g).length = g.length) ∧
    calcular_indicadores_tecnicos [] = none ∧
    (∀ t p, (indicadores_ticker t [p]).length = 1 ∧
        (indicadores_ticker t [p]).map IndicatorRow.sma20 = [none] ∧
        (indicadores_ticker t [p]).map IndicatorRow.sma50 = [none] ∧
        (indicadores_ticker t [p]).map IndicatorRow.rsi14 = [nan] ∧
        (indicadores_ticker t [p]).map IndicatorRow.atr14 = [nan] ∧
        (indicadores_ticker t [p]).map IndicatorRow.bbMiddle = [none] ∧
        (indicadores_ticker t [p]).map IndicatorRow.bbUpper = [none] ∧
        (indicadores_ticker t [p]).map IndicatorRow.bbLower = [none] ∧
        (indicadores_ticker t [p]).map IndicatorRow.volatility20 = [none]) := by
  refine ⟨?_, ?_, rfl, ?_⟩
  · intro tabla hne
    obtain ⟨hd, tl, rfl⟩ := List.exists_cons_of_ne_nil hne
    refine ⟨_, rfl, ?_⟩
    simp only [List.length_flatten, List.map_map]
    refine congrArg List.sum (List.map_congr_left ?_)
    intro p _
    exact length_indicadores_ticker p.1 p.2
  · exact length_indicadores_ticker
  · intro t p
    exact ⟨rfl, rfl, rfl, rfl, rfl, rfl, rfl, rfl, rfl⟩

/-- C1 counterexample: on the empty input table the source reaches
`pd.concat(indicadores)` with `indicadores == []`, which raises
`ValueError: No objects to concatenate` — the engine errors (`none`), it
does not return the empty output table claimed. -/
theorem C1_counterexample :
    calcular_indicadores_tecnicos [] = none ∧
    (none : Option (List IndicatorRow)) ≠ some [] :=
  ⟨rfl, by simp⟩

/-! ### C9 -/

lemma le_foldl_max (l : List ℚ) : ∀ x : ℚ, x ≤ l.foldl max x := by
  induction l with
  | nil => intro x; exact le_refl x
  | cons y ys ih =>
    intro x
    exact le_trans (le_max_left x y) (ih (max x y))

lemma foldl_min_le (l : List ℚ) : ∀ x : ℚ, l.foldl min x ≤ x := by
  induction l with
  | nil => intro x; exact le_refl x
  | cons y ys ih =>
    intro x
    exact le_trans (ih (min x y)) (min_le_left x y)

lemma listMin_le_listMax {closes : List ℚ} (h : closes ≠ []) :
    listMin closes ≤ listMax closes := by
  match closes, h with
  | c :: cs, _ =>
    exact le_trans (foldl_min_le cs c) (le_foldl_max cs c)

lemma fib_chain {closes : List ℚ} (h : closes ≠ []) :
    fib236 closes ≤ fib00 closes ∧ fib382 closes ≤ fib236 closes ∧
    fib500 closes ≤ fib382 closes ∧ fib618 closes ≤ fib500 closes ∧
    fib100 closes ≤ fib618 closes := by
  have hd : 0 ≤ listMax closes - listMin closes :=
    sub_nonneg.mpr (listMin_le_listMax h)
  unfold fib00 fib236 fib382 fib500 fib618 fib100
  refine ⟨by nlinarith, by nlinarith, by nlinarith, by nlinarith, by nlinarith⟩

/-- C9: for a nonempty close series the six Fibonacci levels, computed from
the global maximum and minimum close, are monotonically ordered
`fib_0_0 ≥ fib_23_6 ≥ fib_38_2 ≥ fib_50_0 ≥ fib_61_8 ≥ fib_100`, with
`fib_0_0 = maxClose` and `fib_100 = minClose`; the same chain holds on every
row the engine emits. -/
theorem C9_fib_levels_monotone (closes : List ℚ) (h : closes ≠ []) :
    fib00 closes = listMax closes ∧ fib100 closes = listMin closes ∧
    fib236 closes ≤ fib00 closes ∧ fib382 closes ≤ fib236 closes ∧
    fib500 closes ≤ fib382 closes ∧ fib618 closes ≤ fib500 closes ∧
    fib100 closes ≤ fib618 closes ∧
    (∀ t g r, r ∈ indicadores_ticker t g →
        r.fib00 ≥ r.fib236 ∧ r.fib236 ≥ r.fib382 ∧ r.fib382 ≥ r.fib500 ∧
        r.fib500 ≥ r.fib618 ∧ r.fib618 ≥ r.fib100) := by
  obtain ⟨h1, h2, h3, h4, h5⟩ := fib_chain h
  refine ⟨rfl, rfl, h1, h2, h3, h4, h5, ?_⟩
  intro t g r hr
  simp only [indicadores_ticker, List.mem_map, List.mem_range] at hr
  obtain ⟨i, hi, rfl⟩ := hr
  have hne : (sortByDate g).map PricePoint.close ≠ [] := by
    intro hempty
    have : ((sortByDate g).map PricePoint.close).length = 0 := by rw [hempty]; rfl
    rw [List.length_map] at this
    omega
  obtain ⟨k1, k2, k3, k4, k5⟩ := fib_chain hne
  exact ⟨k1, k2, k3, k4, k5⟩

/-- Witness for C9 at the concrete series `[1, 2]`. -/
theorem C9_fib_levels_monotone_witness :
    (([1, 2] : List ℚ) ≠ []) ∧ fib100 [1, 2] ≤ fib618 [1, 2] ∧
      fib00 ([1, 2] : List ℚ) = listMax [1, 2] :=
  ⟨by simp, (C9_fib_levels_monotone [1, 2] (by simp)).2.2.2.2.2.2.1,
    (C9_fib_levels_monotone [1, 2] (by simp)).1⟩

/-! ### C3 -/

lemma minPairAux_le (l : List (String × ℚ)) :
    ∀ b, (minPairAux b l).2 ≤ b.2 ∧ ∀ q ∈ l, (minPairAux b l).2 ≤ q.2 := by
  induction l with
  | nil =>
    intro b
    exact ⟨le_refl _, by intro q hq; cases hq⟩
  | cons p rest ih =>
    intro b
    by_cases h : p.2 < b.2
    · simp only [minPairAux, if_pos h]
      obtain ⟨ih1, ih2⟩ := ih p
      refine ⟨le_trans ih1 h.le, ?_⟩
      intro q hq
      rcases List.mem_cons.mp hq with hq | hq
      · exact hq ▸ ih1
      · exact ih2 q hq
    · simp only [minPairAux, if_neg h]
      obtain ⟨ih1, ih2⟩ := ih b
      refine ⟨ih1, ?_⟩
      intro q hq
      rcases List.mem_cons.mp hq with hq | hq
      · exact hq ▸ le_trans ih1 (not_lt.mp h)
      · exact ih2 q hq

lemma minPairAux_first (l : List (String × ℚ)) :
    ∀ b, ∃ k : ℕ, (b :: l)[k]? = some (minPairAux b l) ∧
      ∀ j : ℕ, j < k → ∀ q : String × ℚ, (b :: l)[j]? = some q →
        (minPairAux b l).2 < q.2 := by
  induction l with
  | nil =>
    intro b
    refine ⟨0, by simp [minPairAux], ?_⟩
    intro j hj
    exact absurd hj (Nat.not_lt_zero j)
  | cons p rest ih =>
    intro b
    by_cases h : p.2 < b.2
    · simp only [minPairAux, if_pos h]
      obtain ⟨k, hk, hbef⟩ := ih p
      refine ⟨k + 1, ?_, ?_⟩
      · rw [List.getElem?_cons_succ]; exact hk
      · intro j hj q hq
        cases j with
        | zero =>
          rw [List.getElem?_cons_zero] at hq
          injection hq with hq
          subst hq
          exact lt_of_le_of_lt (minPairAux_le rest p).1 h
        | succ j' =>
          rw [List.getElem?_cons_succ] at hq
          exact hbef j' (by omega) q hq
    · simp only [minPairAux, if_neg h]
      obtain ⟨k, hk, hbef⟩ := ih b
      cases k with
      | zero =>
        rw [List.getElem?_cons_zero] at hk
        refine ⟨0, ?_, ?_⟩
        · rw [List.getElem?_cons_zero]; exact hk
        · intro j hj
          exact absurd hj (Nat.not_lt_zero j)
      | succ k' =>
        rw [List.getElem?_cons_succ] at hk
        have hrb : (minPairAux b rest).2 < b.2 := by
          apply hbef 0 (Nat.succ_pos k') b
          rw [List.getElem?_cons_zero]
        refine ⟨k' + 2, ?_, ?_⟩
        · rw [List.getElem?_cons_succ, List.getElem?_cons_succ]; exact hk
        · intro j hj q hq
          cases j with
          | zero =>
            rw [List.getElem?_cons_zero] at hq
            injection hq with hq
            subst hq
            exact hrb
          | succ j' =>
            rw [List.getElem?_cons_succ] at hq
            cases j' with
            | zero =>
              rw [List.getElem?_cons_zero] at hq
              injection hq with hq
              subst hq
              exact lt_of_lt_of_le hrb (not_lt.mp h)
            | succ j'' =>
              rw [List.getElem?_cons_succ] at hq
              refine hbef (j'' + 1) (by omega) q ?_
              rw [List.getElem?_cons_succ]
              exact hq

lemma nivelFib_spec (closes : List ℚ) :
    ∃ (k : ℕ) (pr : String × ℚ), (fibDiffs closes)[k]? = some pr ∧
      pr.1 = nivelFibCercano closes ∧
      (∀ q ∈ fibDiffs closes, pr.2 ≤ q.2) ∧
      ∀ j : ℕ, j < k → ∀ q : String × ℚ, (fibDiffs closes)[j]? = some q →
        pr.2 < q.2 := by
  cases hfd : fibDiffs closes with
  | nil => simp [fibDiffs] at hfd
  | cons p rest =>
    have hniv : nivelFibCercano closes = (minPairAux p rest).1 := by
      unfold nivelFibCercano
      rw [hfd]
    obtain ⟨k, hk, hbef⟩ := minPairAux_first rest p
    refine ⟨k, minPairAux p rest, hk, hniv.symm, ?_, ?_⟩
    · intro q hq
      rcases List.mem_cons.mp hq with hq | hq
      · exact hq ▸ (minPairAux_le rest p).1
      · exact (minPairAux_le rest p).2 q hq
    · intro j hj q hq
      exact hbef j hj q hq

/-- C3: the nearest Fibonacci level is the level among the six (computed
from the global max/min close) at minimal absolute distance from the most
recent close, ties broken by the first level in the fixed order 0.0%,
23.6%, 38.2%, 50.0%, 61.8%, 100%; its classification is SOPORTE for the
three middle levels, RESISTENCIA for the two top ones and NEUTRO for 100%;
and every output row of a ticker carries this same nearest-level/state
pair. -/
theorem C3_nearest_fib_level (closes : List ℚ) (_h : closes ≠ []) :
    (∃ (k : ℕ) (pr : String × ℚ), (fibDiffs closes)[k]? = some pr ∧
      pr.1 = nivelFibCercano closes ∧
      (∀ q ∈ fibDiffs closes, pr.2 ≤ q.2) ∧
      ∀ j : ℕ, j < k → ∀ q : String × ℚ, (fibDiffs closes)[j]? = some q →
        pr.2 < q.2) ∧
    nivelFibCercano closes ∈
      (["0.0%", "23.6%", "38.2%", "50.0%", "61.8%", "100%"] : List String) ∧
    (nivelFibCercano closes ∈ (["38.2%", "50.0%", "61.8%"] : List String) →
      estadoFibCalc closes = "SOPORTE") ∧
    (nivelFibCercano closes ∈ (["0.0%", "23.6%"] : List String) →
      estadoFibCalc closes = "RESISTENCIA") ∧
    (nivelFibCercano closes = "100%" → estadoFibCalc closes = "NEUTRO") ∧
    (∀ t g r, r ∈ indicadores_ticker t g →
      r.nivelFibCercano = nivelFibCercano ((sortByDate g).map PricePoint.close) ∧
      r.estadoFibonacci = estadoFibCalc ((sortByDate g).map PricePoint.close)) := by
  refine ⟨nivelFib_spec closes, ?_, ?_, ?_, ?_, ?_⟩
  · obtain ⟨k, pr, hk, hpr, -, -⟩ := nivelFib_spec closes
    have hmem : pr ∈ fibDiffs closes := List.mem_iff_getElem?.mpr ⟨k, hk⟩
    have : pr.1 ∈ (fibDiffs closes).map Prod.fst := List.mem_map_of_mem Prod.fst hmem
    rw [hpr] at this
    simpa [fibDiffs] using this
  · intro hmem
    unfold estadoFibCalc
    rw [if_pos hmem]
  · intro hmem
    unfold estadoFibCalc
    rcases (by simpa using hmem : nivelFibCercano closes = "0.0%" ∨
        nivelFibCercano closes = "23.6%") with h0 | h0 <;>
      rw [h0] <;> decide
  · intro h100
    unfold estadoFibCalc
    rw [h100]
    decide
  · intro t g r hr
    simp only [indicadores_ticker, List.mem_map, List.mem_range] at hr
    obtain ⟨i, hi, rfl⟩ := hr
    exact ⟨rfl, rfl⟩

/-- Witness for C3 at the concrete series `[1, 2]`. -/
theorem C3_nearest_fib_level_witness :
    (([1, 2] : List ℚ) ≠ []) ∧ nivelFibCercano [1, 2] ∈
      (["0.0%", "23.6%", "38.2%", "50.0%", "61.8%", "100%"] : List String) :=
  ⟨by simp, (C3_nearest_fib_level [1, 2] (by simp)).2.1⟩

/-! ### C6 -/

lemma length_emaAux (a : ℚ) : ∀ (prev : ℚ) (xs : List ℚ),
    (emaAux a prev xs).length = xs.length := by
  intro prev xs
  induction xs generalizing prev with
  | nil => rfl
  | cons x t ih => simp [emaAux, ih]

lemma length_ema (span : ℕ) (xs : List ℚ) : (ema span xs).length = xs.length := by
  cases xs with
  | nil => rfl
  | cons x t => simp [ema, length_emaAux]

lemma emaAux_getElem?_succ (a : ℚ) :
    ∀ (xs : List ℚ) (prev : ℚ) (i : ℕ) (x e : ℚ),
      xs[i + 1]? = some x → (emaAux a prev xs)[i]? = some e →
      (emaAux a prev xs)[i + 1]? = some (a * x + (1 - a) * e) := by
  intro xs
  induction xs with
  | nil =>
    intro prev i x e hx _
    simp at hx
  | cons y ys ih =>
    intro prev i x e hx he
    cases i with
    | zero =>
      rw [List.getElem?_cons_succ] at hx
      simp only [emaAux] at he ⊢
      rw [List.getElem?_cons_zero] at he
      injection he with he
      rw [List.getElem?_cons_succ]
      cases ys with
      | nil => simp at hx
      | cons z zs =>
        rw [List.getElem?_cons_zero] at hx
        injection hx with hx
        subst hx
        simp only [emaAux]
        rw [List.getElem?_cons_zero, he]
    | succ j =>
      simp only [emaAux] at he ⊢
      rw [List.getElem?_cons_succ] at hx he ⊢
      exact ih _ j x e hx he

lemma range_map_getD {α : Type} (l : List α) (d : α) :
    (List.range l.length).map (fun i => l.getD i d) = l := by
  apply List.ext_getElem?
  intro n
  by_cases h : n < l.length
  · rw [range_map_getElem? _ h, List.getD_eq_getElem?_getD, List.getElem?_eq_getElem h]
    rfl
  · rw [List.getElem?_eq_none (le_of_not_lt h)]
    apply List.getElem?_eq_none
    rw [List.length_map, List.length_range]
    exact le_of_not_lt h

/-- C6: the exponential moving average satisfies exactly the `adjust=False`
recursion `ema[0] = series[0]`, `ema[i] = a*series[i] + (1-a)*ema[i-1]` with
`a = 2/(span+1)`, seeded at the first observation; this recursion governs the
engine's EMA_20 column and the three EMAs inside the MACD computation. -/
theorem C6_ema_recursion (span : ℕ) (closes : List ℚ) (h : closes ≠ []) :
    (ema span closes)[0]? = closes[0]? ∧
    (ema span closes).length = closes.length ∧
    (∀ i : ℕ, ∀ x e : ℚ, closes[i + 1]? = some x → (ema span closes)[i]? = some e →
      (ema span closes)[i + 1]? =
        some ((2 / ((span : ℚ) + 1)) * x + (1 - 2 / ((span : ℚ) + 1)) * e)) ∧
    (∀ cl : List ℚ, calcular_macd cl =
      (List.zipWith (fun a b => a - b) (ema 12 cl) (ema 26 cl),
       ema 9 (List.zipWith (fun a b => a - b) (ema 12 cl) (ema 26 cl)),
       List.zipWith (fun a b => a - b)
         (List.zipWith (fun a b => a - b) (ema 12 cl) (ema 26 cl))
         (ema 9 (List.zipWith (fun a b => a - b) (ema 12 cl) (ema 26 cl))))) ∧
    (∀ t g, (indicadores_ticker t g).map IndicatorRow.ema20
        = ema 20 ((sortByDate g).map PricePoint.close)) := by
  obtain ⟨c, cs, rfl⟩ := List.exists_cons_of_ne_nil h
  refine ⟨by simp [ema], length_ema span (c :: cs), ?_, fun cl => rfl, ?_⟩
  · intro i x e hx he
    simp only [ema] at he ⊢
    cases i with
    | zero =>
      rw [List.getElem?_cons_zero] at he
      injection he with he
      rw [List.getElem?_cons_succ] at hx ⊢
      cases cs with
      | nil => simp at hx
      | cons z zs =>
        rw [List.getElem?_cons_zero] at hx
        injection hx with hx
        subst hx
        simp only [emaAux]
        rw [List.getElem?_cons_zero, he]
    | succ j =>
      rw [List.getElem?_cons_succ] at hx he ⊢
      exact emaAux_getElem?_succ _ cs c j x e hx he
  · intro t g
    simp only [indicadores_ticker, List.map_map]
    rw [show (sortByDate g).length
        = (ema 20 ((sortByDate g).map PricePoint.close)).length by
      rw [length_ema, List.length_map]]
    exact range_map_getD (ema 20 ((sortByDate g).map PricePoint.close)) 0

/-- Witness for C6 at span 20 and the concrete series `[1, 2]`. -/
theorem C6_ema_recursion_witness :
    (([1, 2] : List ℚ) ≠ []) ∧ (ema 20 [1, 2])[0]? = (([1, 2] : List ℚ))[0]? :=
  ⟨by simp, (C6_ema_recursion 20 [1, 2] (by simp)).1⟩

/-! ### C2 -/

lemma ratFloor_intCast (z : ℤ) : ratFloor (z : ℚ) = z := by
  simp [ratFloor, Rat.num_intCast, Rat.den_intCast]

lemma roundHalfEven_intCast (z : ℤ) : roundHalfEven (z : ℚ) = z := by
  norm_num [roundHalfEven, ratFloor_intCast]

lemma roundTo_tenth : roundTo 4 (1/10 : ℚ) = 1/10 := by
  have h : ((1 : ℚ)/10 * 10 ^ 4) = ((1000 : ℤ) : ℚ) := by norm_num
  rw [roundTo, h, roundHalfEven_intCast]
  norm_num

lemma pct_change_getElem? (lag : ℕ) (closes : List ℚ) (i : ℕ)
    (h : i < closes.length) :
    (pct_change lag closes)[i]? = some (if i < lag then nan
      else match closes[i - lag]?, closes[i]? with
        | some p, some c => fsub (fdiv (fin c) (fin p)) (fin 1)
        | _, _ => nan) :=
  range_map_getElem? _ h

/-- C2 (amended): the variation column at lag `lag` equals
`(close[i] - close[i-lag]) / close[i-lag]` rounded to 4 decimals, is null
(NaN) for the first `lag` rows, and on a zero base `close[i-lag] = 0` it is
NaN only when `close[i]` is also zero, a signed infinity otherwise (pandas
float division raises no exception); the spec's worked example
`[100, 110, 121] → [null, 0.10, 0.10]` holds at lag 1. -/
theorem C2_variation_pct_change (lag : ℕ) (closes : List ℚ) :
    (∀ i : ℕ, i < closes.length → i < lag →
      (variacion lag closes)[i]? = some nan) ∧
    (∀ i : ℕ, ∀ p c : ℚ, lag ≤ i → closes[i - lag]? = some p →
        closes[i]? = some c →
      (p ≠ 0 → (variacion lag closes)[i]? = some (fin (roundTo 4 ((c - p) / p)))) ∧
      (p = 0 → c = 0 → (variacion lag closes)[i]? = some nan) ∧
      (p = 0 → 0 < c → (variacion lag closes)[i]? = some pinf) ∧
      (p = 0 → c < 0 → (variacion lag closes)[i]? = some ninf)) ∧
    variacion 1 [100, 110, 121] = [nan, fin (1/10), fin (1/10)] := by
  refine ⟨?_, ?_, ?_⟩
  · intro i h1 h2
    rw [variacion, List.getElem?_map, pct_change_getElem? lag closes i h1, if_pos h2]
    rfl
  · intro i p c hlag hp hc
    obtain ⟨hi, -⟩ := List.getElem?_eq_some.mp hc
    rw [variacion, List.getElem?_map, pct_change_getElem? lag closes i hi,
      if_neg (not_lt.mpr hlag), hp, hc]
    refine ⟨?_, ?_, ?_, ?_⟩
    · intro hp0
      simp only [Option.map_some', fdiv, if_neg hp0, fsub, fneg, fadd, froundTo]
      have : c / p + -1 = (c - p) / p := by
        rw [sub_div, div_self hp0]
        ring
      rw [this]
    · intro hp0 hc0
      subst hp0; subst hc0
      simp [fdiv, fsub, fneg, fadd, froundTo]
    · intro hp0 hc0
      subst hp0
      simp [fdiv, fsub, fneg, fadd, froundTo, hc0, ne_of_gt hc0]
    · intro hp0 hc0
      subst hp0
      simp [fdiv, fsub, fneg, fadd, froundTo, hc0, ne_of_lt hc0, not_lt.mpr hc0.le]
  · have hr : List.range 3 = [0, 1, 2] := rfl
    have h1 : ((110 : ℚ)/100 + -1) = 1/10 := by norm_num
    have h2 : ((121 : ℚ)/110 + -1) = 1/10 := by norm_num
    norm_num [variacion, pct_change, hr, fdiv, fsub, fneg, fadd, froundTo, h1, h2,
      roundTo_tenth]

/-- C2 counterexample: at the series `[0, 1]` with lag 1 the base close is
zero and the next close is 1, and the code yields +∞ (pandas float division),
not null — refuting the claim that a zero `close[i-lag]` always yields
null. -/
theorem C2_counterexample :
    (variacion 1 [0, 1])[1]? = some pinf ∧ pinf ≠ nan := by
  constructor
  · have hr : List.range 2 = [0, 1] := rfl
    norm_num [variacion, pct_change, hr, fdiv, fsub, fneg, fadd, froundTo]
  · decide

/-! ### C7 -/

lemma forall_mem_zipWith {α β γ : Type} {P : γ → Prop} {f : α → β → γ}
    (h : ∀ a b, P (f a b)) :
    ∀ (l1 : List α) (l2 : List β), ∀ x ∈ List.zipWith f l1 l2, P x := by
  intro l1
  induction l1 with
  | nil =>
    intro l2 x hx
    simp at hx
  | cons a t ih =>
    intro l2 x hx
    cases l2 with
    | nil => simp at hx
    | cons b t2 =>
      rw [List.zipWith_cons_cons] at hx
      rcases List.mem_cons.mp hx with rfl | hx
      · exact h a b
      · exact ih t2 x hx

lemma mem_diffSeries {closes : List ℚ} :
    ∀ d ∈ diffSeries closes, d = nan ∨ ∃ q, d = fin q := by
  intro d hd
  cases closes with
  | nil => simp [diffSeries] at hd
  | cons x xs =>
    simp only [diffSeries, List.mem_cons] at hd
    rcases hd with rfl | hd
    · exact Or.inl rfl
    · exact forall_mem_zipWith (P := fun d => d = nan ∨ ∃ q, d = fin q)
        (fun a b => Or.inr ⟨a - b, rfl⟩) xs (x :: xs) d hd

lemma mem_gainSeries {closes : List ℚ} :
    ∀ x ∈ gainSeries closes, x = nan ∨ ∃ q, 0 ≤ q ∧ x = fin q := by
  intro x hx
  rw [gainSeries, List.mem_map] at hx
  obtain ⟨d, hd, rfl⟩ := hx
  rcases mem_diffSeries d hd with rfl | ⟨q, rfl⟩
  · exact Or.inl rfl
  · exact Or.inr ⟨max q 0, le_max_right q 0, rfl⟩

lemma mem_lossSeries {closes : List ℚ} :
    ∀ x ∈ lossSeries closes, x = nan ∨ ∃ q, 0 ≤ q ∧ x = fin q := by
  intro x hx
  rw [lossSeries, List.mem_map] at hx
  obtain ⟨d, hd, rfl⟩ := hx
  rcases mem_diffSeries d hd with rfl | ⟨q, rfl⟩
  · exact Or.inl rfl
  · refine Or.inr ⟨-(min q 0), ?_, rfl⟩
    simp [neg_nonneg, min_le_right q 0]

lemma foldl_fadd_nan : ∀ l : List FVal, l.foldl fadd nan = nan := by
  intro l
  induction l with
  | nil => rfl
  | cons x t ih => simpa [fadd] using ih

lemma foldl_fadd_nonneg :
    ∀ (l : List FVal) (acc : ℚ), 0 ≤ acc →
      (∀ x ∈ l, x = nan ∨ ∃ q, 0 ≤ q ∧ x = fin q) →
      l.foldl fadd (fin acc) = nan ∨
        ∃ q, 0 ≤ q ∧ l.foldl fadd (fin acc) = fin q := by
  intro l
  induction l with
  | nil =>
    intro acc hacc _
    exact Or.inr ⟨acc, hacc, rfl⟩
  | cons x t ih =>
    intro acc hacc hmem
    rcases hmem x (List.mem_cons_self x t) with rfl | ⟨q, hq, rfl⟩
    · left
      simpa [fadd] using foldl_fadd_nan t
    · simp only [List.foldl_cons, fadd]
      exact ih (acc + q) (add_nonneg hacc hq)
        (fun y hy => hmem y (List.mem_cons_of_mem _ hy))

lemma mem_windowSlice {w i : ℕ} {xs : List FVal} {x : FVal}
    (h : x ∈ windowSlice w i xs) : x ∈ xs :=
  List.mem_of_mem_drop (List.mem_of_mem_take h)

lemma rollingMeanF_mem_nonneg {xs : List FVal} {w : ℕ} (hw : w ≠ 0)
    (hx : ∀ x ∈ xs, x = nan ∨ ∃ q, 0 ≤ q ∧ x = fin q) :
    ∀ y ∈ rollingMeanF w xs, y = nan ∨ ∃ q, 0 ≤ q ∧ y = fin q := by
  intro y hy
  rw [rollingMeanF, List.mem_map] at hy
  obtain ⟨i, _, rfl⟩ := hy
  by_cases h : i + 1 < w
  · rw [if_pos h]
    exact Or.inl rfl
  · rw [if_neg h]
    rcases foldl_fadd_nonneg (windowSlice w i xs) 0 le_rfl
        (fun z hz => hx z (mem_windowSlice hz)) with h1 | ⟨q, hq, h1⟩
    · left
      rw [fsum, h1]
      rfl
    · right
      refine ⟨q / w, div_nonneg hq (Nat.cast_nonneg w), ?_⟩
      rw [fsum, h1]
      simp only [fdiv]
      rw [if_neg (by exact_mod_cast hw)]

/-- C7: wherever the RSI column is a finite value it lies in [0, 100];
when the average loss is 0 and the average gain is positive the RSI is
exactly 100; and when both rolling averages are 0 the RSI is NaN (the 0/0
null propagates, no special case). -/
theorem C7_rsi_bounds (closes : List ℚ) :
    (∀ i : ℕ, ∀ v : ℚ, (calcular_rsi closes)[i]? = some (fin v) →
      0 ≤ v ∧ v ≤ 100) ∧
    (∀ i : ℕ, ∀ g : ℚ, (avgGain closes)[i]? = some (fin g) →
        (avgLoss closes)[i]? = some (fin 0) →
      (0 < g → (calcular_rsi closes)[i]? = some (fin 100)) ∧
      (g = 0 → (calcular_rsi closes)[i]? = some nan)) := by
  constructor
  · intro i v hv
    rw [calcular_rsi, List.getElem?_map, List.getElem?_zipWith] at hv
    cases hga : (avgGain closes)[i]? with
    | none => rw [hga] at hv; cases (avgLoss closes)[i]? <;> simp at hv
    | some ga =>
      cases hla : (avgLoss closes)[i]? with
      | none => rw [hga, hla] at hv; simp at hv
      | some la =>
        rw [hga, hla] at hv
        simp only [Option.map_some'] at hv
        injection hv with hv
        have hgm := rollingMeanF_mem_nonneg (by norm_num) mem_gainSeries ga
          (List.mem_iff_getElem?.mpr ⟨i, hga⟩)
        have hlm := rollingMeanF_mem_nonneg (by norm_num) mem_lossSeries la
          (List.mem_iff_getElem?.mpr ⟨i, hla⟩)
        rcases hgm with rfl | ⟨g, hg0, rfl⟩
        · simp [fdiv, fadd, fsub, fneg] at hv
        · rcases hlm with rfl | ⟨l, hl0, rfl⟩
          · simp [fdiv, fadd, fsub, fneg] at hv
          · by_cases hl : l = 0
            · subst hl
              by_cases hg : g = 0
              · subst hg
                simp [fdiv, fadd, fsub, fneg] at hv
              · have hgpos : 0 < g := lt_of_le_of_ne hg0 (Ne.symm hg)
                have e1 : fdiv (fin g) (fin (0 : ℚ)) = pinf := by
                  show (if (0 : ℚ) = 0 then
                      (if g = 0 then nan else if 0 < g then pinf else ninf)
                    else fin (g / 0)) = pinf
                  rw [if_pos rfl, if_neg hg, if_pos hgpos]
                rw [e1] at hv
                have e2 : fsub (fin 100) (fdiv (fin 100) (fadd (fin 1) pinf))
                    = fin (100 + -0) := rfl
                rw [e2] at hv
                injection hv with hv
                subst hv
                norm_num
            · have e1 : fdiv (fin g) (fin l) = fin (g / l) := by
                show (if l = 0 then
                    (if g = 0 then nan else if 0 < g then pinf else ninf)
                  else fin (g / l)) = fin (g / l)
                rw [if_neg hl]
              rw [e1] at hv
              have h1q : (0 : ℚ) < 1 + g / l := by positivity
              have e2 : fadd (fin 1) (fin (g / l)) = fin (1 + g / l) := rfl
              rw [e2] at hv
              have e3 : fdiv (fin 100) (fin (1 + g / l))
                  = fin (100 / (1 + g / l)) := by
                show (if (1 + g / l : ℚ) = 0 then
                    (if (100 : ℚ) = 0 then nan
                      else if (0 : ℚ) < 100 then pinf else ninf)
                  else fin (100 / (1 + g / l))) = fin (100 / (1 + g / l))
                rw [if_neg (ne_of_gt h1q)]
              rw [e3] at hv
              have e4 : fsub (fin 100) (fin (100 / (1 + g / l)))
                  = fin (100 + -(100 / (1 + g / l))) := rfl
              rw [e4] at hv
              injection hv with hv
              subst hv
              have hgl : 0 ≤ g / l :=
                div_nonneg hg0 (le_of_lt (lt_of_le_of_ne hl0 (Ne.symm hl)))
              constructor
              · have : 100 / (1 + g / l) ≤ 100 :=
                  div_le_self (by norm_num) (by linarith)
                linarith
              · have : 0 ≤ 100 / (1 + g / l) := by positivity
                linarith
  · intro i g hga hla
    have hi : i < (calcular_rsi closes).length := by
      rw [calcular_rsi, List.length_map, List.length_zipWith]
      obtain ⟨hi1, -⟩ := List.getElem?_eq_some.mp hga
      obtain ⟨hi2, -⟩ := List.getElem?_eq_some.mp hla
      exact lt_min hi1 hi2
    constructor
    · intro hgpos
      rw [calcular_rsi, List.getElem?_map, List.getElem?_zipWith, hga, hla]
      have hg : g ≠ 0 := ne_of_gt hgpos
      have e1 : fdiv (fin g) (fin (0 : ℚ)) = pinf := by
        show (if (0 : ℚ) = 0 then
            (if g = 0 then nan else if 0 < g then pinf else ninf)
          else fin (g / 0)) = pinf
        rw [if_pos rfl, if_neg hg, if_pos hgpos]
      simp only [Option.map_some', e1]
      have e2 : fsub (fin 100) (fdiv (fin 100) (fadd (fin 1) pinf))
          = fin (100 + -0) := rfl
      rw [e2]
      norm_num
    · intro hg
      subst hg
      rw [calcular_rsi, List.getElem?_map, List.getElem?_zipWith, hga, hla]
      have e1 : fdiv (fin (0 : ℚ)) (fin (0 : ℚ)) = nan := by
        show (if (0 : ℚ) = 0 then
            (if (0 : ℚ) = 0 then nan else if (0 : ℚ) < 0 then pinf else ninf)
          else fin (0 / 0)) = nan
        rw [if_pos rfl, if_pos rfl]
      simp only [Option.map_some', e1]
      rfl

/-! ### C8 -/

lemma length_shiftSeries (xs : List ℚ) : (shiftSeries xs).length = xs.length := by
  cases xs with
  | nil => rfl
  | cons x t =>
    simp [shiftSeries, List.length_dropLast]

lemma length_trueRange {highs lows closes : List ℚ}
    (hh : highs.length = closes.length) (hl : lows.length = closes.length) :
    (trueRange highs lows closes).length = closes.length := by
  simp [trueRange, List.length_zipWith, length_shiftSeries, hh, hl]

lemma shiftSeries_getElem?_zero {xs : List ℚ} (h : xs ≠ []) :
    (shiftSeries xs)[0]? = some nan := by
  cases xs with
  | nil => exact absurd rfl h
  | cons x t =>
    rw [show shiftSeries (x :: t) = nan :: (x :: t).dropLast.map fin from rfl,
      List.getElem?_cons_zero]

lemma shiftSeries_getElem?_succ {xs : List ℚ} {i : ℕ} {c : ℚ}
    (hi : i + 1 < xs.length) (hc : xs[i]? = some c) :
    (shiftSeries xs)[i + 1]? = some (fin c) := by
  cases xs with
  | nil => simp at hi
  | cons x t =>
    rw [show shiftSeries (x :: t) = nan :: (x :: t).dropLast.map fin from rfl,
      List.getElem?_cons_succ, List.getElem?_map, List.getElem?_dropLast,
      if_pos (by simpa using hi), hc]
    rfl

lemma trueRange_getElem? {highs lows closes : List ℚ} {i : ℕ} {hi li : ℚ} {s : FVal}
    (hhi : highs[i]? = some hi) (hli : lows[i]? = some li)
    (hs : (shiftSeries closes)[i]? = some s) :
    (trueRange highs lows closes)[i]?
      = some (fmax2 (fmax2 (fin (hi - li)) (fabs (fsub (fin hi) s)))
          (fabs (fsub (fin li) s))) := by
  simp only [trueRange, List.getElem?_zipWith, hhi, hli, hs]

lemma foldl_fadd_fin :
    ∀ (l : List FVal) (acc : ℚ), (∀ x ∈ l, ∃ q : ℚ, x = fin q) →
      ∃ q : ℚ, l.foldl fadd (fin acc) = fin q := by
  intro l
  induction l with
  | nil =>
    intro acc _
    exact ⟨acc, rfl⟩
  | cons x t ih =>
    intro acc hmem
    obtain ⟨q, rfl⟩ := hmem x (List.mem_cons_self x t)
    simp only [List.foldl_cons, fadd]
    exact ih (acc + q) (fun y hy => hmem y (List.mem_cons_of_mem _ hy))

lemma rollingMeanF_getElem? (w : ℕ) (xs : List FVal) (i : ℕ) (h : i < xs.length) :
    (rollingMeanF w xs)[i]? = some (if i + 1 < w then nan
      else fdiv (fsum (windowSlice w i xs)) (fin w)) :=
  range_map_getElem? _ h

lemma trueRange_all_fin {highs lows closes : List ℚ}
    (hh : highs.length = closes.length) (hl : lows.length = closes.length) :
    ∀ i : ℕ, i < closes.length →
      ∃ q : ℚ, (trueRange highs lows closes)[i]? = some (fin q) := by
  intro i hic
  have hih : i < highs.length := hh ▸ hic
  have hil : i < lows.length := hl ▸ hic
  obtain ⟨-, hhi⟩ := List.getElem?_eq_some.mp (List.getElem?_eq_getElem hih)
  obtain ⟨-, hli⟩ := List.getElem?_eq_some.mp (List.getElem?_eq_getElem hil)
  cases i with
  | zero =>
    have hne : closes ≠ [] := by
      intro hc
      rw [hc] at hic
      simp at hic
    rw [trueRange_getElem? (List.getElem?_eq_getElem hih)
      (List.getElem?_eq_getElem hil) (shiftSeries_getElem?_zero hne)]
    exact ⟨_, rfl⟩
  | succ j =>
    have hjc : j < closes.length := by omega
    have hsj : (shiftSeries closes)[j + 1]? = some (fin (closes.getD j 0)) := by
      apply shiftSeries_getElem?_succ hic
      rw [List.getD_eq_getElem?_getD, List.getElem?_eq_getElem hjc]
      rfl
    rw [trueRange_getElem? (List.getElem?_eq_getElem hih)
      (List.getElem?_eq_getElem hil) hsj]
    exact ⟨_, rfl⟩

/-- C8: the true range at day `i ≥ 1` is
`max(high-low, |high-prevClose|, |low-prevClose|)`; at day 0, where the two
shift-based differences are NaN, the skipna maximum still resolves to
`high-low` (null never propagates past the first row); and the ATR — the
rolling mean of the true range over window 14 — is a finite value from index
13 on, given same-length high/low/close series. -/
theorem C8_true_range_atr (highs lows closes : List ℚ)
    (hh : highs.length = closes.length) (hl : lows.length = closes.length) :
    (∀ h0 l0 : ℚ, highs[0]? = some h0 → lows[0]? = some l0 →
      (trueRange highs lows closes)[0]? = some (fin (h0 - l0))) ∧
    (∀ i : ℕ, ∀ hi li c : ℚ, highs[i + 1]? = some hi → lows[i + 1]? = some li →
        closes[i]? = some c →
      (trueRange highs lows closes)[i + 1]?
        = some (fin (max (hi - li) (max |hi - c| |li - c|)))) ∧
    calcular_atr highs lows closes = rollingMeanF 14 (trueRange highs lows closes) ∧
    (∀ i : ℕ, 13 ≤ i → i < closes.length →
      ∃ q : ℚ, (calcular_atr highs lows closes)[i]? = some (fin q)) := by
  refine ⟨?_, ?_, rfl, ?_⟩
  · intro h0 l0 hh0 hl0
    have hne : closes ≠ [] := by
      intro hc
      obtain ⟨hlt, -⟩ := List.getElem?_eq_some.mp hh0
      rw [hh, hc] at hlt
      simp at hlt
    rw [trueRange_getElem? hh0 hl0 (shiftSeries_getElem?_zero hne)]
    rfl
  · intro i hi li c hhi hli hc
    have hic : i + 1 < closes.length := by
      obtain ⟨hlt, -⟩ := List.getElem?_eq_some.mp hhi
      rw [hh] at hlt
      exact hlt
    rw [trueRange_getElem? hhi hli (shiftSeries_getElem?_succ hic hc)]
    simp only [fsub, fadd, fneg, fabs, fmax2]
    rw [← sub_eq_add_neg, ← sub_eq_add_neg, max_assoc]
  · intro i h13 hic
    have hTRlen := length_trueRange hh hl
    have hiTR : i < (trueRange highs lows closes).length := by
      rw [hTRlen]
      exact hic
    rw [calcular_atr, rollingMeanF_getElem? 14 _ i hiTR, if_neg (by omega)]
    have hwin : ∀ x ∈ windowSlice 14 i (trueRange highs lows closes),
        ∃ q : ℚ, x = fin q := by
      intro x hx
      obtain ⟨j, hj⟩ := List.mem_iff_getElem?.mp (mem_windowSlice hx)
      have hjlen : j < closes.length := by
        obtain ⟨hlt, -⟩ := List.getElem?_eq_some.mp hj
        rw [hTRlen] at hlt
        exact hlt
      obtain ⟨q, hq⟩ := trueRange_all_fin hh hl j hjlen
      rw [hj] at hq
      injection hq with hq
      exact ⟨q, hq⟩
    obtain ⟨s, hs⟩ := foldl_fadd_fin (windowSlice 14 i (trueRange highs lows closes)) 0 hwin
    refine ⟨s / 14, ?_⟩
    rw [show fsum (windowSlice 14 i (trueRange highs lows closes)) = fin s from hs,
      show (((14 : ℕ) : ℚ)) = (14 : ℚ) from by norm_num]
    have : fdiv (fin s) (fin (14 : ℚ)) = fin (s / 14) := by
      show (if (14 : ℚ) = 0 then
          (if s = 0 then nan else if 0 < s then pinf else ninf)
        else fin (s / 14)) = fin (s / 14)
      rw [if_neg (by norm_num)]
    rw [this]

/-- Witness for C8 at the concrete series highs `[5, 6]`, lows `[1, 2]`,
closes `[4, 5]`. -/
theorem C8_true_range_atr_witness :
    (([5, 6] : List ℚ).length = ([4, 5] : List ℚ).length) ∧
      (trueRange [5, 6] [1, 2] [4, 5])[0]? = some (fin (5 - 1)) :=
  ⟨rfl, (C8_true_range_atr [5, 6] [1, 2] [4, 5] rfl rfl).1 5 1 rfl rfl⟩

/-! ### C10 -/

lemma rollingMeanQ_getElem?_full {w : ℕ} {closes : List ℚ} {i : ℕ}
    (hge : ¬ i + 1 < w) (hn : i < closes.length) :
    (rollingMeanQ w closes)[i]?
      = some (some (((closes.drop (i + 1 - w)).take w).sum / w)) := by
  rw [rollingMeanQ, range_map_getElem? _ hn, if_neg hge]

lemma rollingVar_getElem?_full {w : ℕ} {closes : List ℚ} {i : ℕ}
    (hge : ¬ i + 1 < w) (hn : i < closes.length) :
    (rollingVar w closes)[i]?
      = some (some ((((closes.drop (i + 1 - w)).take w).map
          (fun x => (x - ((closes.drop (i + 1 - w)).take w).sum / (w : ℚ)) ^ 2)).sum
            / ((w - 1 : ℕ) : ℚ))) := by
  rw [rollingVar, range_map_getElem? _ hn, if_neg hge]

lemma envelope_ineq (m s : ℝ) (hs : 0 ≤ s) : m - 2 * s ≤ m ∧ m ≤ m + 2 * s :=
  ⟨by linarith, by linarith⟩

/-- C10 (implicit): wherever the Bollinger fields are defined (a full
20-window), the bands are the symmetric envelope
`middle ± 2 · rollingStd(close, 20)` around the middle band, the same
standard deviation stored as `Volatility_20`; the standard deviation is a
square root, hence nonnegative, so `BB_Lower ≤ BB_Middle ≤ BB_Upper`. -/
theorem C10_bollinger_envelope (closes : List ℚ) (i : ℕ)
    (h19 : 19 ≤ i) (hn : i < closes.length) :
    ∃ m v : ℚ,
      (rollingMeanQ 20 closes)[i]? = some (some m) ∧
      (rollingVar 20 closes)[i]? = some (some v) ∧
      (rollingStd 20 closes)[i]? = some (some (Real.sqrt (v : ℝ))) ∧
      0 ≤ Real.sqrt (v : ℝ) ∧
      ((m : ℝ) + 2 * Real.sqrt (v : ℝ)) - (m : ℝ) = 2 * Real.sqrt (v : ℝ) ∧
      (m : ℝ) - ((m : ℝ) - 2 * Real.sqrt (v : ℝ)) = 2 * Real.sqrt (v : ℝ) ∧
      (m : ℝ) - 2 * Real.sqrt (v : ℝ) ≤ (m : ℝ) ∧
      (m : ℝ) ≤ (m : ℝ) + 2 * Real.sqrt (v : ℝ) ∧
      (∀ t g r, (sortByDate g).map PricePoint.close = closes →
        (indicadores_ticker t g)[i]? = some r →
        r.bbMiddle = some m ∧
        r.volatility20 = some (Real.sqrt (v : ℝ)) ∧
        r.bbUpper = some ((m : ℝ) + 2 * Real.sqrt (v : ℝ)) ∧
        r.bbLower = some ((m : ℝ) - 2 * Real.sqrt (v : ℝ))) := by
  have hge : ¬ i + 1 < 20 := by omega
  have hm := rollingMeanQ_getElem?_full hge hn
  have hv := rollingVar_getElem?_full hge hn
  have hstd : (rollingStd 20 closes)[i]?
      = some (Option.map (fun v : ℚ => Real.sqrt (v : ℝ))
          ((rollingVar 20 closes)[i]?.getD none)) := by
    rw [rollingStd, List.getElem?_map, hv]
    rfl
  rw [hv] at hstd
  refine ⟨_, _, hm, hv, hstd, Real.sqrt_nonneg _, by ring, by ring,
    (envelope_ineq _ _ (Real.sqrt_nonneg _)).1,
    (envelope_ineq _ _ (Real.sqrt_nonneg _)).2, ?_⟩
  intro t g r hclose hr
  have hlen : i < (sortByDate g).length := by
    have : ((sortByDate g).map PricePoint.close).length = closes.length := by
      rw [hclose]
    rw [List.length_map] at this
    omega
  rw [indicadores_ticker, range_map_getElem? _ hlen] at hr
  injection hr with hr
  subst hr
  refine ⟨?_, ?_, ?_, ?_⟩
  · show (rollingMeanQ 20 ((sortByDate g).map PricePoint.close)).getD i none = _
    rw [hclose, List.getD_eq_getElem?_getD, hm]
    rfl
  · show (rollingStd 20 ((sortByDate g).map PricePoint.close)).getD i none = _
    rw [hclose, List.getD_eq_getElem?_getD, hstd]
    rfl
  · show (List.zipWith _ (rollingMeanQ 20 ((sortByDate g).map PricePoint.close))
        (rollingStd 20 ((sortByDate g).map PricePoint.close))).getD i none = _
    rw [hclose, List.getD_eq_getElem?_getD, List.getElem?_zipWith, hm, hstd]
    rfl
  · show (List.zipWith _ (rollingMeanQ 20 ((sortByDate g).map PricePoint.close))
        (rollingStd 20 ((sortByDate g).map PricePoint.close))).getD i none = _
    rw [hclose, List.getD_eq_getElem?_getD, List.getElem?_zipWith, hm, hstd]
    rfl

/-- Witness for C10 at 20 equal closes, index 19 (the first full window). -/
theorem C10_bollinger_envelope_witness :
    19 < (List.replicate 20 (1 : ℚ)).length ∧
      ∃ m : ℚ, (rollingMeanQ 20 (List.replicate 20 1))[19]? = some (some m) :=
  ⟨by simp,
    match C10_bollinger_envelope (List.replicate 20 1) 19 (by omega) (by simp) with
    | ⟨m, _, h1, _⟩ => ⟨m, h1⟩⟩

/-! ### C4 -/

/-- C4: each of the eight categorical signals is present in the vote exactly
when every field it reads is non-null (a missing field omits the signal, it
is not counted as HOLD); the technical and fundamental BUY percentages are
`count(BUY) / count(present) * 100` rounded to 2 decimals over the present
signals only, and are null exactly when no signal of that family is
present. -/
theorem C4_presence_gating (r : JoinedRow) :
    ((∃ s : String, ("SMA_vs_EMA", s) ∈ senalesTec r) ↔
      (r.sma20 ≠ none ∧ r.ema20 ≠ none)) ∧
    ((∃ s : String, ("MACD", s) ∈ senalesTec r) ↔
      (r.macd ≠ none ∧ r.macdSignal ≠ none)) ∧
    ((∃ s : String, ("RSI", s) ∈ senalesTec r) ↔ r.rsi14 ≠ none) ∧
    ((∃ s : String, ("Estado_Fibonacci", s) ∈ senalesTec r) ↔
      r.estadoFibonacci ≠ none) ∧
    ((∃ s : String, ("PER", s) ∈ senalesFund r) ↔ r.per ≠ none) ∧
    ((∃ s : String, ("ROE", s) ∈ senalesFund r) ↔ r.roe ≠ none) ∧
    ((∃ s : String, ("EPS Growth YoY", s) ∈ senalesFund r) ↔
      r.epsGrowth ≠ none) ∧
    ((∃ s : String, ("Deuda/Patrimonio", s) ∈ senalesFund r) ↔
      r.deudaPatrimonio ≠ none) ∧
    ((senalesTec r).length =
      (if r.sma20 ≠ none ∧ r.ema20 ≠ none then 1 else 0) +
      (if r.macd ≠ none ∧ r.macdSignal ≠ none then 1 else 0) +
      (if r.rsi14 ≠ none then 1 else 0) +
      (if r.estadoFibonacci ≠ none then 1 else 0)) ∧
    ((senalesFund r).length =
      (if r.per ≠ none then 1 else 0) + (if r.roe ≠ none then 1 else 0) +
      (if r.epsGrowth ≠ none then 1 else 0) +
      (if r.deudaPatrimonio ≠ none then 1 else 0)) ∧
    (pctTecnicoBuy r = none ↔ (senalesTec r).length = 0) ∧
    ((senalesTec r).length ≠ 0 → pctTecnicoBuy r = some (roundTo 2
      ((countCompras (senalesTec r) : ℚ) / ((senalesTec r).length : ℚ) * 100))) ∧
    (pctFundamentalBuy r = none ↔ (senalesFund r).length = 0) ∧
    ((senalesFund r).length ≠ 0 → pctFundamentalBuy r = some (roundTo 2
      ((countCompras (senalesFund r) : ℚ) /
        ((senalesFund r).length : ℚ) * 100))) := by
  obtain ⟨tk, s20, e20, mc, ms, rs, cl, bu, bl, ef, vper, vroe, veps, vde⟩ := r
  refine ⟨?_, ?_, ?_, ?_, ?_, ?_, ?_, ?_, ?_, ?_, ?_, ?_, ?_, ?_⟩
  · cases s20 <;> cases e20 <;> cases mc <;> cases ms <;> cases rs <;> cases ef <;>
      simp [senalesTec]
  · cases s20 <;> cases e20 <;> cases mc <;> cases ms <;> cases rs <;> cases ef <;>
      simp [senalesTec]
  · cases s20 <;> cases e20 <;> cases mc <;> cases ms <;> cases rs <;> cases ef <;>
      simp [senalesTec]
  · cases s20 <;> cases e20 <;> cases mc <;> cases ms <;> cases rs <;> cases ef <;>
      simp [senalesTec]
  · cases vper <;> cases vroe <;> cases veps <;> cases vde <;> simp [senalesFund]
  · cases vper <;> cases vroe <;> cases veps <;> cases vde <;> simp [senalesFund]
  · cases vper <;> cases vroe <;> cases veps <;> cases vde <;> simp [senalesFund]
  · cases vper <;> cases vroe <;> cases veps <;> cases vde <;> simp [senalesFund]
  · cases s20 <;> cases e20 <;> cases mc <;> cases ms <;> cases rs <;> cases ef <;>
      simp [senalesTec]
  · cases vper <;> cases vroe <;> cases veps <;> cases vde <;> simp [senalesFund]
  · by_cases h : 0 < (senalesTec
        ⟨tk, s20, e20, mc, ms, rs, cl, bu, bl, ef, vper, vroe, veps, vde⟩).length
    · simp only [pctTecnicoBuy, if_pos h]
      constructor
      · intro hc
        cases hc
      · intro hc
        omega
    · simp only [pctTecnicoBuy, if_neg h]
      constructor
      · intro _
        omega
      · intro _
        trivial
  · intro h
    simp only [pctTecnicoBuy, if_pos (Nat.pos_of_ne_zero h)]
  · by_cases h : 0 < (senalesFund
        ⟨tk, s20, e20, mc, ms, rs, cl, bu, bl, ef, vper, vroe, veps, vde⟩).length
    · simp only [pctFundamentalBuy, if_pos h]
      constructor
      · intro hc
        cases hc
      · intro hc
        omega
    · simp only [pctFundamentalBuy, if_neg h]
      constructor
      · intro _
        omega
      · intro _
        trivial
  · intro h
    simp only [pctFundamentalBuy, if_pos (Nat.pos_of_ne_zero h)]

/-! ### C5 -/

lemma roundTo_hundred : roundTo 2 (100 : ℚ) = 100 := by
  rw [roundTo, show ((100 : ℚ) * 10 ^ 2) = ((10000 : ℤ) : ℚ) from by norm_num,
    roundHalfEven_intCast]
  norm_num

/-- C5: the final decision is BUY exactly when the BUY votes across the
technical and fundamental signals strictly exceed the SELL votes, SELL
exactly when SELL votes strictly exceed BUY votes, and HOLD exactly on a tie
(including the no-applicable-signal 0-0 case); on the spec's worked example
all eight signals are BUY, both percentages are 100 and the decision is
COMPRAR. -/
theorem C5_majority_decision (r : JoinedRow) :
    (decisionFinal r = "COMPRAR" ↔
      countVentas (senalesTec r) + countVentas (senalesFund r)
        < countCompras (senalesTec r) + countCompras (senalesFund r)) ∧
    (decisionFinal r = "VENDER" ↔
      countCompras (senalesTec r) + countCompras (senalesFund r)
        < countVentas (senalesTec r) + countVentas (senalesFund r)) ∧
    (decisionFinal r = "MANTENER" ↔
      countCompras (senalesTec r) + countCompras (senalesFund r)
        = countVentas (senalesTec r) + countVentas (senalesFund r)) ∧
    (senalesTec ejemploResumen).map Prod.snd
      = ["COMPRAR", "COMPRAR", "COMPRAR", "COMPRAR"] ∧
    (senalesFund ejemploResumen).map Prod.snd
      = ["COMPRAR", "COMPRAR", "COMPRAR", "COMPRAR"] ∧
    pctTecnicoBuy ejemploResumen = some 100 ∧
    pctFundamentalBuy ejemploResumen = some 100 ∧
    decisionFinal ejemploResumen = "COMPRAR" := by
  have hTec : senalesTec ejemploResumen =
      [("SMA_vs_EMA", "COMPRAR"), ("MACD", "COMPRAR"), ("RSI", "COMPRAR"),
        ("Estado_Fibonacci", "COMPRAR")] := by
    norm_num [senalesTec, ejemploResumen]
  have hFund : senalesFund ejemploResumen =
      [("PER", "COMPRAR"), ("ROE", "COMPRAR"), ("EPS Growth YoY", "COMPRAR"),
        ("Deuda/Patrimonio", "COMPRAR")] := by
    norm_num [senalesFund, ejemploResumen]
  have hCount : countCompras (senalesTec ejemploResumen) = 4 ∧
      countCompras (senalesFund ejemploResumen) = 4 ∧
      countVentas (senalesTec ejemploResumen) = 0 ∧
      countVentas (senalesFund ejemploResumen) = 0 := by
    rw [countCompras, countVentas, countCompras, countVentas, hTec, hFund]
    refine ⟨rfl, rfl, rfl, rfl⟩
  refine ⟨?_, ?_, ?_, by rw [hTec]; rfl, by rw [hFund]; rfl, ?_, ?_, ?_⟩
  · simp only [decisionFinal]
    split_ifs with h1 h2 <;> simp <;> omega
  · simp only [decisionFinal]
    split_ifs with h1 h2 <;> simp <;> omega
  · simp only [decisionFinal]
    split_ifs with h1 h2 <;> simp <;> omega
  · rw [pctTecnicoBuy, if_pos (by rw [hTec]; norm_num), hCount.1]
    rw [show ((4 : ℕ) : ℚ) / ((senalesTec ejemploResumen).length : ℚ) * 100
        = 100 from by rw [hTec]; norm_num]
    rw [roundTo_hundred]
  · rw [pctFundamentalBuy, if_pos (by rw [hFund]; norm_num), hCount.2.1]
    rw [show ((4 : ℕ) : ℚ) / ((senalesFund ejemploResumen).length : ℚ) * 100
        = 100 from by rw [hFund]; norm_num]
    rw [roundTo_hundred]
  · simp only [decisionFinal, hCount.1, hCount.2.1, hCount.2.2.1, hCount.2.2.2]
    norm_num

end Transform
